import Mathlib

/-
Verification of the culinary backend (src/backend/main.py).

The development shallowly embeds the pure core of the backend:
  - the ingredient consensus analyzer (analyze_recipe_data),
  - the structured-data extractor scan loop (extract_json_ld),
  - the fan-out coordinator acceptance loop inside find_recipies,
  - the degrade-gracefully collaborator wrappers
    (SERPAPI key check, sort_recipes_with_gemini, normalize_ingredients).

Python dict values of heterogeneous shape are embedded as explicit
inductive types; a record mapping is an insertion-ordered association
list, matching the insertion-order semantics of Python dicts.  Machine
floats are embedded as exact rationals; Python round (round half to
even) is pyRound below.
-/

set_option maxRecDepth 4096

namespace Culinary

/-- Annotation fields that analyze_recipe_data writes onto a dict-shaped
ingredient entry.  A field is none while the corresponding dict key is
absent. -/
structure IngAnnotations where
  frequency_percent : Option ℤ
  consensus_level : Option String
  is_secret_ingredient : Option Bool
deriving DecidableEq

/-- An element of the recipeIngredient list of a record: a plain string
(not yet normalized), some other non-dict value, or a dict with optional
ingredient_name and quantity keys plus the annotation keys. -/
inductive Entry where
  | str (s : String)
  | notDict
  | obj (ingredient_name : Option String) (quantity : Option String) (ann : IngAnnotations)
deriving DecidableEq

/-- The recipeIngredient key of a record: absent, present but not a
list, or a list of entries.  recipe_data.get with default [] makes an
absent key behave as the empty list. -/
inductive IngField where
  | missing
  | notList
  | list (l : List Entry)
deriving DecidableEq

/-- The ratingValue inside aggregateRating: a JSON number, a string that
float() parses to the given rational, a string float() rejects, or a
value of a type float() rejects. -/
inductive RV where
  | num (q : ℚ)
  | strNum (q : ℚ)
  | strBad
  | nonNumeric
deriving DecidableEq

/-- The aggregateRating key of a record: absent, present but not a
dict, or a dict with an optional ratingValue key. -/
inductive Rating where
  | missing
  | notDict
  | dict (ratingValue : Option RV)
deriving DecidableEq

/-- A recipe record: the fields read or written by the analyzer, plus
otherFields standing for every remaining key (name, times, ...), which
the analyzer never touches. -/
structure RecipeRecord where
  rating : Rating
  ingredients : IngField
  otherFields : String
deriving DecidableEq

/-- Result of float(rating_info.get("ratingValue", 0)) on a dict-shaped
aggregateRating, and none when no coercion is attempted or float()
raises.  An absent aggregateRating or a non-dict one never reaches the
float() call; an absent ratingValue key defaults to 0. -/
def ratingCoerced : Rating → Option ℚ
  | .missing => none
  | .notDict => none
  | .dict none => some 0
  | .dict (some (.num q)) => some q
  | .dict (some (.strNum q)) => some q
  | .dict (some .strBad) => none
  | .dict (some .nonNumeric) => none

/-- Embeds the is_highly_rated computation of analyze_recipe_data:
true exactly when the coerced rating exists and is at least 4.5
(written mkRat 9 2 so that the comparison evaluates); a ValueError or
TypeError from float() is swallowed by the except clause and leaves
the flag false. -/
def isHighlyRated (r : Rating) : Bool :=
  match ratingCoerced r with
  | some q => decide (mkRat 9 2 ≤ q)
  | none => false

/-- Python truthiness filter applied to ingredient.get("ingredient_name"):
an absent key or an empty string is falsy and yields no name. -/
def truthyName : Option String → Option String
  | none => none
  | some s => if s = "" then none else some s

/-- The truthy ingredient_name of a dict-shaped entry, none otherwise. -/
def entryName : Entry → Option String
  | .obj n _ _ => truthyName n
  | _ => none

/-- The deduplicated set of ingredient names one record contributes to
the frequency map.  Mirrors the counting loop of analyze_recipe_data:
a non-list recipeIngredient is skipped, a nonempty list whose first
element is a plain string is skipped (not-yet-normalized record), and
otherwise the set comprehension collects each truthy ingredient_name
once. -/
def recordNames (r : RecipeRecord) : List String :=
  match r.ingredients with
  | .missing => []
  | .notList => []
  | .list (.str _ :: _) => []
  | .list l => (l.filterMap entryName).dedup

/-- Embeds ingredient_counts.get(name, 0): the number of records whose
contributed name set contains the name.  The counting loop adds one to
the entry of name for each record whose set contains it. -/
def globalCount (recipes : List (String × RecipeRecord)) (name : String) : Nat :=
  recipes.countP (fun kv => name ∈ recordNames kv.2)

/-- Python round on an exact rational: round half to even, as applied
by the analyzer to the frequency percentage.  This is the reference
formulation in the language of the spec; the executable analyzer below
uses roundHalfEvenDiv, proved equal on quotients of naturals. -/
def pyRound (q : ℚ) : ℤ :=
  if Int.fract q < 1/2 then ⌊q⌋
  else if 1/2 < Int.fract q then ⌊q⌋ + 1
  else if ⌊q⌋ % 2 = 0 then ⌊q⌋ else ⌊q⌋ + 1

/-- Round half to even of the exact quotient m / n, written with
natural division and remainder so that it evaluates by kernel
reduction.  Agrees with pyRound of the rational m / n whenever n is
positive (lemma roundHalfEvenDiv_eq_pyRound). -/
def roundHalfEvenDiv (m n : ℕ) : ℤ :=
  let q := m / n
  let r := m % n
  if 2 * r < n then (q : ℤ)
  else if n < 2 * r then (q : ℤ) + 1
  else if q % 2 = 0 then (q : ℤ) else (q : ℤ) + 1

/-- The three assignments the annotation loop performs on the dict of
one truthy-named ingredient occurrence, folded into one record:
frequency_percent is always overwritten with the rounded percentage,
consensus_level is overwritten on the two threshold branches (both
tested against the unrounded percentage) and otherwise left at its
prior value, and is_secret_ingredient is always overwritten.  The
source computes percentage = (frequency / num_recipes) * 100 and tests
percentage >= 60 and percentage < 40; over the exact rational these
comparisons are 60 * num_recipes <= 100 * frequency and
100 * frequency < 40 * num_recipes, the form used here so that the
definition evaluates (lemmas essential_cond_iff and
variant_cond_iff restate them over the rational percentage). -/
def annotateFields (counts : String → Nat) (numRecipes : Nat) (highly : Bool)
    (name : String) (ann : IngAnnotations) : IngAnnotations :=
  let frequency := counts name
  { frequency_percent := some (roundHalfEvenDiv (100 * frequency) numRecipes)
    consensus_level :=
      if 60 * numRecipes ≤ 100 * frequency then some "Essential"
      else if 100 * frequency < 40 * numRecipes then some "Flavor Variant"
      else ann.consensus_level
    is_secret_ingredient := some (highly && (frequency == 1)) }

/-- One step of the inner annotation loop: non-dict entries are skipped
by the isinstance guard, dict entries with a falsy ingredient_name are
skipped by the `if not name` guard, and the rest are annotated.
Membership of name in unique_ingredients is its count being exactly 1. -/
def annotateEntry (counts : String → Nat) (numRecipes : Nat) (highly : Bool) :
    Entry → Entry
  | .str s => .str s
  | .notDict => .notDict
  | .obj nf q ann =>
    match truthyName nf with
    | none => .obj nf q ann
    | some name => .obj nf q (annotateFields counts numRecipes highly name ann)

/-- One step of the outer annotation loop over records: is_highly_rated
is computed from aggregateRating, then every entry of a list-shaped
recipeIngredient is annotated in place; non-list recipeIngredient is
skipped by the isinstance guard. -/
def annotateRecord (counts : String → Nat) (numRecipes : Nat) (r : RecipeRecord) :
    RecipeRecord :=
  match r.ingredients with
  | .missing => r
  | .notList => r
  | .list l =>
    { r with ingredients := .list (l.map (annotateEntry counts numRecipes (isHighlyRated r.rating))) }

/-- Embeds analyze_recipe_data of src/backend/main.py: a mapping with
fewer than 2 records is returned unchanged; otherwise every record is
annotated against the global frequency map built from the whole
mapping. -/
def analyze_recipe_data (recipes : List (String × RecipeRecord)) :
    List (String × RecipeRecord) :=
  if recipes.length < 2 then recipes
  else recipes.map (fun kv => (kv.1, annotateRecord (globalCount recipes) recipes.length kv.2))

/-- The ingredient entry at list position i of the record at mapping
position j, used to state per-occurrence properties. -/
def entryAt (recipes : List (String × RecipeRecord)) (j i : Nat) : Option Entry :=
  match recipes.get? j with
  | none => none
  | some kv =>
    match kv.2.ingredients with
    | .list l => l.get? i
    | _ => none

/-- A decoded JSON-LD candidate object: a dict with its optional
declared type and an opaque payload identifying the object, or a
non-dict graph element skipped by the isinstance guard. -/
inductive JItem where
  | obj (attype : Option String) (payload : Nat)
  | nonObj
deriving DecidableEq

/-- The result of json.loads on one script block: a list of objects,
a dict (with its own type and payload and an optional list-shaped
graph key), or a scalar of some other type. -/
inductive Decoded where
  | jlist (items : List JItem)
  | jdict (attype : Option String) (payload : Nat) (graph : Option (List JItem))
  | scalar
deriving DecidableEq

/-- One script tag of type application/ld+json found in the page:
empty (script.string is falsy), invalid (json.loads raises
JSONDecodeError), or valid with its decoded value. -/
inductive ScriptBlock where
  | empty
  | invalid
  | valid (d : Decoded)
deriving DecidableEq

/-- The test item.get with the at-type key equal to the string Recipe,
applied to dict items only. -/
def isRecipeItem : JItem → Bool
  | .obj t _ => t == some "Recipe"
  | .nonObj => false

/-- The flat candidate sequence one block contributes, none when the
block is skipped: empty and undecodable blocks are skipped, a decoded
list is the sequence itself, a decoded dict is its graph key when
present and the singleton of the dict itself otherwise, and any other
decoded value is skipped by falling to the continue branch. -/
def blockCandidates : ScriptBlock → Option (List JItem)
  | .empty => none
  | .invalid => none
  | .valid (.jlist items) => some items
  | .valid (.jdict t p g) => some (g.getD [.obj t p])
  | .valid .scalar => none

/-- The inner loop of extract_json_ld: the first dict item whose
declared type equals Recipe. -/
def findRecipe : List JItem → Option JItem
  | [] => none
  | it :: rest => if isRecipeItem it then some it else findRecipe rest

/-- Embeds the scanning loop of extract_json_ld of src/backend/main.py
over the script blocks of a fetched document: each block is skipped or
normalized to candidates, the first Recipe candidate is returned, and
none is returned when every block is exhausted. -/
def extract_json_ld : List ScriptBlock → Option JItem
  | [] => none
  | b :: rest =>
    match blockCandidates b with
    | none => extract_json_ld rest
    | some items =>
      match findRecipe items with
      | some it => some it
      | none => extract_json_ld rest

/-- All candidate objects of a document in document order, for the
characterization of extract_json_ld as a first match. -/
def docCandidates (blocks : List ScriptBlock) : List JItem :=
  blocks.flatMap (fun b => (blockCandidates b).getD [])

/-- Embeds the acceptance loop of find_recipies (the for loop over
extracted_data): falsy results are skipped; each truthy record is
inserted under the key recipe_ followed by the incremented counter,
and the loop breaks once the counter has reached limit, a check made
only after an insertion.  The counter starts at cnt and limit keeps
the Python int type, so nonpositive limits are representable. -/
def collectLoop {α : Type} : List (Option α) → Nat → ℤ → List (String × α)
  | [], _, _ => []
  | none :: rest, cnt, limit => collectLoop rest cnt limit
  | some d :: rest, cnt, limit =>
    ("recipe_" ++ toString (cnt + 1), d) ::
      (if limit ≤ ((cnt : ℤ) + 1) then [] else collectLoop rest (cnt + 1) limit)

/-- The fan-out coordinator acceptance phase of find_recipies, run on
the joined extraction results in their original candidate order. -/
def find_recipies_collect {α : Type} (extracted : List (Option α)) (limit : ℤ) :
    List (String × α) :=
  collectLoop extracted 0 limit

/-- Reference labelling of an accepted prefix: assigns synthetic keys
recipe_ cnt+1, cnt+2, ... in order.  Used to characterize
find_recipies_collect. -/
def keyLabel {α : Type} : Nat → List α → List (String × α)
  | _, [] => []
  | cnt, d :: rest => ("recipe_" ++ toString (cnt + 1), d) :: keyLabel (cnt + 1) rest

/-- Model of one concurrent execution of asyncio.gather: every task j
eventually completes, in the order given by schedule, and writes its
own result into its own slot; the coordinator reads the slots in task
order only after the join.  A slot still holding none would mean an
unjoined task, which the coverage hypothesis of the claims rules
out. -/
def runSchedule {α : Type} (results : List (Option α)) (schedule : List Nat) :
    List (Option α) :=
  let final := schedule.foldl
    (fun f j => Function.update f j (some ((results.get? j).getD none)))
    (fun _ => none)
  (List.range results.length).map (fun i => (final i).getD none)

/-- Outcome of the request prologue of find_recipies: either control
proceeds, or an HTTPException with the given status and detail is
raised to the caller. -/
inductive RequestOutcome (α : Type) where
  | ok (v : α)
  | httpError (status : Nat) (detail : String)
deriving DecidableEq

/-- Python falsiness of os.getenv: the variable is unset or holds the
empty string. -/
def falsyKey (key : Option String) : Bool := key.getD "" == ""

/-- Embeds lines 268 to 271 of src/backend/main.py: a falsy
SERPAPI_API_KEY raises HTTPException(500, ...), which the generic
except clause re-raises as a 500 for the caller; otherwise the request
proceeds. -/
def serpapi_key_check (key : Option String) : RequestOutcome Unit :=
  if falsyKey key then
    .httpError 500 "SERPAPI_API_KEY environment variable not set."
  else .ok ()

/-- What came back from the generative sorting collaborator: the call
itself raised, the cleaned response text failed json.loads, or a list
of keys was parsed. -/
inductive SortOutcome where
  | svcError
  | unparseable
  | parsed (keys : List String)
deriving DecidableEq

/-- Embeds sort_recipes_with_gemini of src/backend/main.py: a falsy
GEMINI_API_KEY returns the input unchanged; a raising call or an
unparseable response is caught and returns the input unchanged; a
parsed key list rebuilds the mapping in that key order, keeping only
keys present in the input (the dict comprehension keeps the first
occurrence of a duplicated key, hence the dedup). -/
def sort_recipes_with_gemini {α : Type} (geminiKey : Option String)
    (resp : SortOutcome) (recipes : List (String × α)) : List (String × α) :=
  if falsyKey geminiKey then recipes
  else
    match resp with
    | .svcError => recipes
    | .unparseable => recipes
    | .parsed keys =>
      keys.dedup.filterMap (fun key => (recipes.lookup key).map (fun v => (key, v)))

/-- True when the record carries a recipeIngredient key at all, the
membership test building the normalization payload. -/
def hasIngredientField (r : RecipeRecord) : Bool :=
  match r.ingredients with
  | .missing => false
  | _ => true

/-- Replaces the recipeIngredient value of a record, the in-place
assignment performed when the normalizer returns data for its key. -/
def setIngredients (r : RecipeRecord) (l : List Entry) : RecipeRecord :=
  { r with ingredients := .list l }

/-- What came back from the generative normalization collaborator:
the call raised, the text held no JSON object, json.loads raised, or a
mapping from record keys to normalized ingredient lists was parsed. -/
inductive NormOutcome where
  | svcError
  | noJson
  | badJson
  | parsed (data : List (String × List Entry))

/-- The substitution loop of normalize_ingredients: each returned key
present in the mapping has its recipeIngredient overwritten; other
keys are ignored. -/
def applyNormalized (recipes : List (String × RecipeRecord))
    (data : List (String × List Entry)) : List (String × RecipeRecord) :=
  data.foldl
    (fun recs kv =>
      recs.map (fun rec => if rec.1 = kv.1 then (rec.1, setIngredients rec.2 kv.2) else rec))
    recipes

/-- Embeds normalize_ingredients of src/backend/main.py: a falsy
GEMINI_API_KEY returns the input unchanged, as does an empty
ingredient payload; a raising call, a response without braces, or a
response json.loads rejects all degrade to the unchanged input;
otherwise the parsed data is substituted in. -/
def normalize_ingredients (geminiKey : Option String) (resp : NormOutcome)
    (recipes : List (String × RecipeRecord)) : List (String × RecipeRecord) :=
  if falsyKey geminiKey then recipes
  else if recipes.all (fun kv => !hasIngredientField kv.2) then recipes
  else
    match resp with
    | .svcError => recipes
    | .noJson => recipes
    | .badJson => recipes
    | .parsed data => applyNormalized recipes data

/-! Arithmetic bridge lemmas between the executable natural-number
formulation of the analyzer and the rational percentage language of
the spec. -/

lemma floor_nat_div (m n : ℕ) (hn : 0 < n) :
    ⌊(m : ℚ) / (n : ℚ)⌋ = ((m / n : ℕ) : ℤ) := by
  have hnq : (0 : ℚ) < n := by exact_mod_cast hn
  rw [Int.floor_eq_iff]
  constructor
  · rw [le_div_iff hnq]
    exact_mod_cast Nat.div_mul_le_self m n
  · rw [div_lt_iff hnq]
    have h2 : m < (m / n + 1) * n := by
      have hqr := Nat.div_add_mod m n
      have hr := Nat.mod_lt m hn
      calc m = n * (m / n) + m % n := hqr.symm
        _ < n * (m / n) + n := Nat.add_lt_add_left hr _
        _ = (m / n + 1) * n := by ring
    exact_mod_cast h2

lemma fract_nat_div (m n : ℕ) (hn : 0 < n) :
    Int.fract ((m : ℚ) / (n : ℚ)) = ((m % n : ℕ) : ℚ) / (n : ℚ) := by
  have hnq : (0 : ℚ) < n := by exact_mod_cast hn
  have hne : (n : ℚ) ≠ 0 := ne_of_gt hnq
  rw [Int.fract, floor_nat_div m n hn]
  have key : (m : ℚ) = (n : ℚ) * ((m / n : ℕ) : ℚ) + ((m % n : ℕ) : ℚ) := by
    exact_mod_cast (Nat.div_add_mod m n).symm
  rw [Int.cast_natCast, eq_div_iff hne, sub_mul, div_mul_cancel₀ _ hne]
  linarith

lemma half_lt_cond_iff (r n : ℕ) (hn : 0 < n) :
    ((r : ℚ) / (n : ℚ) < 1 / 2) ↔ 2 * r < n := by
  have hnq : (0 : ℚ) < n := by exact_mod_cast hn
  rw [div_lt_div_iff hnq (by norm_num : (0 : ℚ) < 2), one_mul]
  constructor
  · intro h
    have h' : r * 2 < n := by exact_mod_cast h
    omega
  · intro h
    have h' : r * 2 < n := by omega
    exact_mod_cast h'

lemma lt_half_cond_iff (r n : ℕ) (hn : 0 < n) :
    (1 / 2 < (r : ℚ) / (n : ℚ)) ↔ n < 2 * r := by
  have hnq : (0 : ℚ) < n := by exact_mod_cast hn
  rw [div_lt_div_iff (by norm_num : (0 : ℚ) < 2) hnq, one_mul]
  constructor
  · intro h
    have h' : n < r * 2 := by exact_mod_cast h
    omega
  · intro h
    have h' : n < r * 2 := by omega
    exact_mod_cast h'

/-- The executable rounding of the analyzer agrees with Python round
on the exact rational quotient. -/
lemma roundHalfEvenDiv_eq_pyRound (m n : ℕ) (hn : 0 < n) :
    roundHalfEvenDiv m n = pyRound ((m : ℚ) / (n : ℚ)) := by
  unfold roundHalfEvenDiv pyRound
  rw [floor_nat_div m n hn, fract_nat_div m n hn]
  by_cases h1 : 2 * (m % n) < n
  · rw [if_pos h1, if_pos ((half_lt_cond_iff _ _ hn).2 h1)]
  · rw [if_neg h1, if_neg (fun hc => h1 ((half_lt_cond_iff _ _ hn).1 hc))]
    by_cases h2 : n < 2 * (m % n)
    · rw [if_pos h2, if_pos ((lt_half_cond_iff _ _ hn).2 h2)]
    · rw [if_neg h2, if_neg (fun hc => h2 ((lt_half_cond_iff _ _ hn).1 hc))]
      by_cases h3 : m / n % 2 = 0
      · rw [if_pos h3, if_pos (by omega : ((m / n : ℕ) : ℤ) % 2 = 0)]
      · rw [if_neg h3, if_neg (by omega : ¬ ((m / n : ℕ) : ℤ) % 2 = 0)]

lemma essential_cond_iff (c n : ℕ) (hn : 0 < n) :
    (60 * n ≤ 100 * c) ↔ ((60 : ℚ) ≤ 100 * (c : ℚ) / (n : ℚ)) := by
  have hnq : (0 : ℚ) < n := by exact_mod_cast hn
  rw [le_div_iff hnq]
  constructor <;> intro h <;> exact_mod_cast h

lemma variant_cond_iff (c n : ℕ) (hn : 0 < n) :
    (100 * c < 40 * n) ↔ (100 * (c : ℚ) / (n : ℚ) < 40) := by
  have hnq : (0 : ℚ) < n := by exact_mod_cast hn
  rw [div_lt_iff hnq]
  constructor <;> intro h <;> exact_mod_cast h

/-! Structural lemmas about the analyzer. -/

lemma analyze_get? (recipes : List (String × RecipeRecord)) (j : Nat) (k : String)
    (r : RecipeRecord) (h2 : 2 ≤ recipes.length) (hj : recipes.get? j = some (k, r)) :
    (analyze_recipe_data recipes).get? j
      = some (k, annotateRecord (globalCount recipes) recipes.length r) := by
  unfold analyze_recipe_data
  rw [if_neg (by omega), List.get?_map, hj]
  rfl

lemma entryAt_analyze (recipes : List (String × RecipeRecord)) (j i : Nat) (k : String)
    (r : RecipeRecord) (l : List Entry) (h2 : 2 ≤ recipes.length)
    (hj : recipes.get? j = some (k, r)) (hl : r.ingredients = .list l) :
    entryAt (analyze_recipe_data recipes) j i
      = (l.get? i).map
          (annotateEntry (globalCount recipes) recipes.length (isHighlyRated r.rating)) := by
  unfold entryAt
  rw [analyze_get? recipes j k r h2 hj]
  simp only [annotateRecord, hl]
  rw [List.get?_map]

lemma isHighlyRated_iff (rt : Rating) :
    isHighlyRated rt = true ↔ ∃ x, ratingCoerced rt = some x ∧ (4.5 : ℚ) ≤ x := by
  have h45 : (4.5 : ℚ) = mkRat 9 2 := by norm_num [Rat.mkRat_eq_div]
  unfold isHighlyRated
  rcases h : ratingCoerced rt with _ | q
  · simp
  · simp [h45, decide_eq_true_eq]

/-! Concrete data used by the witnesses: the four mock records of
src/backend/test_analysis.py. -/

/-- An ingredient dict fresh from normalization: no annotation keys. -/
def mockAnn : IngAnnotations :=
  { frequency_percent := none, consensus_level := none, is_secret_ingredient := none }

def mockR1 : RecipeRecord :=
  { rating := .dict (some (.strNum (mkRat 5 1)))
    ingredients := .list
      [.obj (some "salt") (some "1 tsp") mockAnn,
       .obj (some "saffron") (some "1 pinch") mockAnn,
       .obj (some "water") (some "1 cup") mockAnn]
    otherFields := "Perfect Dish (High Rated)" }

def mockR2 : RecipeRecord :=
  { rating := .dict (some (.strNum (mkRat 9 2)))
    ingredients := .list
      [.obj (some "salt") (some "1 tsp") mockAnn,
       .obj (some "pepper") (some "1 tsp") mockAnn,
       .obj (some "water") (some "1 cup") mockAnn]
    otherFields := "Good Dish" }

def mockR3 : RecipeRecord :=
  { rating := .dict (some (.strNum (mkRat 3 1)))
    ingredients := .list
      [.obj (some "salt") (some "1 tsp") mockAnn,
       .obj (some "dirt") (some "1 cup") mockAnn]
    otherFields := "Okay Dish" }

def mockR4 : RecipeRecord :=
  { rating := .dict (some (.strNum (mkRat 4 1)))
    ingredients := .list [.obj (some "salt") (some "1 tsp") mockAnn]
    otherFields := "Another Dish" }

def mockRecipes : List (String × RecipeRecord) :=
  [("recipe_1", mockR1), ("recipe_2", mockR2), ("recipe_3", mockR3), ("recipe_4", mockR4)]

/-- A reordering of mockRecipes, used to witness order stability. -/
def mockRecipesRev : List (String × RecipeRecord) :=
  [("recipe_4", mockR4), ("recipe_3", mockR3), ("recipe_2", mockR2), ("recipe_1", mockR1)]

/-- C2: for a mapping of at least 2 records, every annotated ingredient
occurrence receives frequency_percent equal to Python round of
100 * global_count / total_record_count, where global_count counts the
records whose deduplicated ingredient-name set contains the name; and
the value is stable under any reordering of the input mapping, since
the count and the total are permutation invariants. -/
theorem claim_C2 (recipes recipes' : List (String × RecipeRecord)) (j i : Nat)
    (k : String) (r : RecipeRecord) (l : List Entry) (nf q : Option String)
    (ann : IngAnnotations) (nm : String)
    (h2 : 2 ≤ recipes.length)
    (hj : recipes.get? j = some (k, r))
    (hl : r.ingredients = .list l)
    (hi : l.get? i = some (.obj nf q ann))
    (hn : truthyName nf = some nm)
    (hperm : recipes.Perm recipes') :
    (∃ ann', entryAt (analyze_recipe_data recipes) j i = some (.obj nf q ann') ∧
        ann'.frequency_percent
          = some (pyRound (100 * (globalCount recipes nm : ℚ) / (recipes.length : ℚ))))
    ∧ globalCount recipes' nm = globalCount recipes nm
    ∧ recipes'.length = recipes.length := by
  have hn0 : 0 < recipes.length := by omega
  refine ⟨?_, ?_, hperm.length_eq.symm⟩
  · rw [entryAt_analyze recipes j i k r l h2 hj hl, hi]
    simp only [Option.map_some', annotateEntry, hn]
    refine ⟨_, rfl, ?_⟩
    simp only [annotateFields]
    rw [roundHalfEvenDiv_eq_pyRound _ _ hn0]
    have harg : ((100 * globalCount recipes nm : ℕ) : ℚ)
        = 100 * (globalCount recipes nm : ℚ) := by push_cast; ring
    rw [harg]
  · exact (hperm.countP_eq _).symm

theorem claim_C2_witness :
    (2 ≤ mockRecipes.length)
    ∧ mockRecipes.get? 0 = some ("recipe_1", mockR1)
    ∧ mockR1.ingredients = .list
        [.obj (some "salt") (some "1 tsp") mockAnn,
         .obj (some "saffron") (some "1 pinch") mockAnn,
         .obj (some "water") (some "1 cup") mockAnn]
    ∧ truthyName (some "salt") = some "salt"
    ∧ mockRecipes.Perm mockRecipesRev
    ∧ ((∃ ann', entryAt (analyze_recipe_data mockRecipes) 0 0
          = some (.obj (some "salt") (some "1 tsp") ann') ∧
          ann'.frequency_percent
            = some (pyRound (100 * (globalCount mockRecipes "salt" : ℚ)
                / (mockRecipes.length : ℚ))))
        ∧ globalCount mockRecipesRev "salt" = globalCount mockRecipes "salt"
        ∧ mockRecipesRev.length = mockRecipes.length) :=
  ⟨by decide, by decide, rfl, by decide, by decide,
    claim_C2 mockRecipes mockRecipesRev 0 0 "recipe_1" mockR1 _
      (some "salt") (some "1 tsp") mockAnn "salt"
      (by decide) (by decide) rfl rfl (by decide) (by decide)⟩

/-- A mapping of 42 records in which ingredient a occurs in the first
25 records and ingredient b in the remaining 17.  The exact frequency
of a is 2500/42, about 59.52 percent: it rounds to 60 but lies below
the Essential threshold, which the source tests on the unrounded
value. -/
def cexRecord (idx : Nat) : String × RecipeRecord :=
  (toString idx,
   { rating := .missing
     ingredients := .list
       [.obj (some (if idx < 25 then "a" else "b")) none mockAnn]
     otherFields := "" })

def cexRecipes : List (String × RecipeRecord) := (List.range 42).map cexRecord

/-- C1 counterexample: in a 42-record mapping where ingredient a has
global count 25, the occurrence of a in the first record is annotated
with frequency_percent exactly 60 while consensus_level stays absent,
refuting the claim that frequency_percent of 60 or more always comes
with the Essential tag. -/
theorem claim_C1_counterexample :
    cexRecipes.length = 42
    ∧ globalCount cexRecipes "a" = 25
    ∧ entryAt (analyze_recipe_data cexRecipes) 0 0
        = some (.obj (some "a") none
            { frequency_percent := some 60, consensus_level := none,
              is_secret_ingredient := some false }) := by
  refine ⟨by decide, by decide, by decide⟩

/-- C1 amended: the consensus tag of an annotated occurrence is decided
on the exact unrounded percentage 100 * global_count / total_records,
not on the rounded frequency_percent: Essential exactly when that
percentage is at least 60, Flavor Variant exactly when it is below 40,
and no tag exactly when it lies in the band from 40 inclusive to 60
exclusive.  In particular frequency_percent 60 can occur with no tag
(exact percentage in [59.5, 60)) and frequency_percent 40 can occur
with the Flavor Variant tag (exact percentage in [39.5, 40)); away
from these two rounding boundaries the original reading holds. -/
theorem claim_C1_amended (recipes : List (String × RecipeRecord)) (j i : Nat)
    (k : String) (r : RecipeRecord) (l : List Entry) (nf q : Option String)
    (ann : IngAnnotations) (nm : String)
    (h2 : 2 ≤ recipes.length)
    (hj : recipes.get? j = some (k, r))
    (hl : r.ingredients = .list l)
    (hi : l.get? i = some (.obj nf q ann))
    (hn : truthyName nf = some nm)
    (hfresh : ann.consensus_level = none) :
    ∃ ann', entryAt (analyze_recipe_data recipes) j i = some (.obj nf q ann')
      ∧ (ann'.consensus_level = some "Essential"
          ↔ (60 : ℚ) ≤ 100 * (globalCount recipes nm : ℚ) / (recipes.length : ℚ))
      ∧ (ann'.consensus_level = some "Flavor Variant"
          ↔ 100 * (globalCount recipes nm : ℚ) / (recipes.length : ℚ) < 40)
      ∧ (ann'.consensus_level = none
          ↔ ((40 : ℚ) ≤ 100 * (globalCount recipes nm : ℚ) / (recipes.length : ℚ)
              ∧ 100 * (globalCount recipes nm : ℚ) / (recipes.length : ℚ) < 60)) := by
  have hn0 : 0 < recipes.length := by omega
  have hE := essential_cond_iff (globalCount recipes nm) recipes.length hn0
  have hF := variant_cond_iff (globalCount recipes nm) recipes.length hn0
  rw [entryAt_analyze recipes j i k r l h2 hj hl, hi]
  simp only [Option.map_some', annotateEntry, hn]
  refine ⟨_, rfl, ?_⟩
  simp only [annotateFields]
  by_cases hc1 : 60 * recipes.length ≤ 100 * globalCount recipes nm
  · rw [if_pos hc1]
    have hp60 := hE.1 hc1
    refine ⟨iff_of_true rfl hp60, iff_of_false (by simp) ?_, iff_of_false (by simp) ?_⟩
    · intro hlt; linarith
    · rintro ⟨-, hlt⟩; linarith
  · rw [if_neg hc1]
    have hplt60 : 100 * (globalCount recipes nm : ℚ) / (recipes.length : ℚ) < 60 := by
      by_contra hcon
      exact hc1 (hE.2 (le_of_not_lt hcon))
    by_cases hc2 : 100 * globalCount recipes nm < 40 * recipes.length
    · rw [if_pos hc2]
      have hp40 := hF.1 hc2
      refine ⟨iff_of_false (by simp) ?_, iff_of_true rfl hp40, iff_of_false (by simp) ?_⟩
      · intro h60; linarith
      · rintro ⟨h40, -⟩; linarith
    · rw [if_neg hc2, hfresh]
      have hpge40 : (40 : ℚ) ≤ 100 * (globalCount recipes nm : ℚ) / (recipes.length : ℚ) := by
        by_contra hcon
        exact hc2 (hF.2 (lt_of_not_le hcon))
      refine ⟨iff_of_false (by simp) ?_, iff_of_false (by simp) ?_,
        iff_of_true rfl ⟨hpge40, hplt60⟩⟩
      · intro h60; linarith
      · intro h40; linarith

theorem claim_C1_amended_witness :
    (2 ≤ mockRecipes.length)
    ∧ mockRecipes.get? 0 = some ("recipe_1", mockR1)
    ∧ truthyName (some "salt") = some "salt"
    ∧ mockAnn.consensus_level = none
    ∧ (∃ ann', entryAt (analyze_recipe_data mockRecipes) 0 0
          = some (.obj (some "salt") (some "1 tsp") ann')
        ∧ (ann'.consensus_level = some "Essential"
            ↔ (60 : ℚ) ≤ 100 * (globalCount mockRecipes "salt" : ℚ)
                / (mockRecipes.length : ℚ))
        ∧ (ann'.consensus_level = some "Flavor Variant"
            ↔ 100 * (globalCount mockRecipes "salt" : ℚ)
                / (mockRecipes.length : ℚ) < 40)
        ∧ (ann'.consensus_level = none
            ↔ ((40 : ℚ) ≤ 100 * (globalCount mockRecipes "salt" : ℚ)
                  / (mockRecipes.length : ℚ)
                ∧ 100 * (globalCount mockRecipes "salt" : ℚ)
                  / (mockRecipes.length : ℚ) < 60))) :=
  ⟨by decide, by decide, by decide, rfl,
    claim_C1_amended mockRecipes 0 0 "recipe_1" mockR1 _
      (some "salt") (some "1 tsp") mockAnn "salt"
      (by decide) (by decide) rfl rfl (by decide) rfl⟩

/-- C3: an annotated occurrence gets is_secret_ingredient equal to the
conjunction of the record being highly rated and the global count of
the name being exactly 1; being highly rated is exactly having a
coercible rating of at least 4.5, and a failed or absent coercion
yields false rather than an error. -/
theorem claim_C3 (recipes : List (String × RecipeRecord)) (j i : Nat)
    (k : String) (r : RecipeRecord) (l : List Entry) (nf q : Option String)
    (ann : IngAnnotations) (nm : String)
    (h2 : 2 ≤ recipes.length)
    (hj : recipes.get? j = some (k, r))
    (hl : r.ingredients = .list l)
    (hi : l.get? i = some (.obj nf q ann))
    (hn : truthyName nf = some nm) :
    ∃ ann', entryAt (analyze_recipe_data recipes) j i = some (.obj nf q ann')
      ∧ ann'.is_secret_ingredient
          = some (isHighlyRated r.rating && (globalCount recipes nm == 1))
      ∧ (ann'.is_secret_ingredient = some true
          ↔ (globalCount recipes nm = 1
              ∧ ∃ x, ratingCoerced r.rating = some x ∧ (4.5 : ℚ) ≤ x))
      ∧ (ratingCoerced r.rating = none → ann'.is_secret_ingredient = some false) := by
  rw [entryAt_analyze recipes j i k r l h2 hj hl, hi]
  simp only [Option.map_some', annotateEntry, hn]
  refine ⟨_, rfl, rfl, ?_, ?_⟩
  · simp only [annotateFields, Option.some.injEq, Bool.and_eq_true, beq_iff_eq]
    rw [isHighlyRated_iff]
    tauto
  · intro hc
    simp only [annotateFields, Option.some.injEq]
    unfold isHighlyRated
    rw [hc]
    simp

theorem claim_C3_witness :
    (2 ≤ mockRecipes.length)
    ∧ mockRecipes.get? 0 = some ("recipe_1", mockR1)
    ∧ truthyName (some "saffron") = some "saffron"
    ∧ (∃ ann', entryAt (analyze_recipe_data mockRecipes) 0 1
          = some (.obj (some "saffron") (some "1 pinch") ann')
        ∧ ann'.is_secret_ingredient
            = some (isHighlyRated mockR1.rating && (globalCount mockRecipes "saffron" == 1))
        ∧ (ann'.is_secret_ingredient = some true
            ↔ (globalCount mockRecipes "saffron" = 1
                ∧ ∃ x, ratingCoerced mockR1.rating = some x ∧ (4.5 : ℚ) ≤ x))
        ∧ (ratingCoerced mockR1.rating = none →
              ann'.is_secret_ingredient = some false)) :=
  ⟨by decide, by decide, by decide,
    claim_C3 mockRecipes 0 1 "recipe_1" mockR1 _
      (some "saffron") (some "1 pinch") mockAnn "saffron"
      (by decide) (by decide) rfl rfl (by decide)⟩

/-- True exactly on plain-string ingredient entries. -/
def isStrEntry : Entry → Bool
  | .str _ => true
  | _ => false

/-- C4: a record whose recipeIngredient entries are all plain strings
contributes nothing to the frequency counts (its contributed name set
is empty) and is returned by the analyzer entirely unchanged, whatever
the rest of the mapping holds. -/
theorem claim_C4 (recipes : List (String × RecipeRecord)) (j : Nat)
    (k : String) (r : RecipeRecord) (l : List Entry)
    (hj : recipes.get? j = some (k, r))
    (hl : r.ingredients = .list l)
    (hstr : l.all isStrEntry = true) :
    recordNames r = [] ∧ (analyze_recipe_data recipes).get? j = some (k, r) := by
  have hstr' : ∀ e ∈ l, ∃ s, e = Entry.str s := by
    intro e he
    have := (List.all_eq_true.1 hstr) e he
    cases e with
    | str s => exact ⟨s, rfl⟩
    | notDict => simp [isStrEntry] at this
    | obj nf q ann => simp [isStrEntry] at this
  have hnames : recordNames r = [] := by
    cases l with
    | nil => simp [recordNames, hl, entryName]
    | cons e es =>
      obtain ⟨s, rfl⟩ := hstr' e (List.mem_cons_self e es)
      simp [recordNames, hl]
  refine ⟨hnames, ?_⟩
  by_cases h2 : recipes.length < 2
  · unfold analyze_recipe_data
    rw [if_pos h2]
    exact hj
  · rw [analyze_get? recipes j k r (by omega) hj]
    have hmap : ∀ (counts : String → Nat) (nrec : Nat) (hb : Bool),
        l.map (annotateEntry counts nrec hb) = l := by
      intro counts nrec hb
      calc l.map (annotateEntry counts nrec hb) = l.map id := by
            apply List.map_congr_left
            intro e he
            obtain ⟨s, rfl⟩ := hstr' e he
            rfl
        _ = l := List.map_id l
    obtain ⟨rt, ing, ofld⟩ := r
    simp only at hl
    subst hl
    simp [annotateRecord, hmap]

def strRecord : RecipeRecord :=
  { rating := .dict (some (.strNum (mkRat 5 1)))
    ingredients := .list [.str "2 cups flour", .str "1 tsp salt"]
    otherFields := "Unnormalized Dish" }

def strRecipes : List (String × RecipeRecord) :=
  [("recipe_1", strRecord), ("recipe_2", mockR2), ("recipe_3", mockR3)]

theorem claim_C4_witness :
    strRecipes.get? 0 = some ("recipe_1", strRecord)
    ∧ strRecord.ingredients = .list [.str "2 cups flour", .str "1 tsp salt"]
    ∧ ([Entry.str "2 cups flour", Entry.str "1 tsp salt"].all isStrEntry = true)
    ∧ (recordNames strRecord = []
        ∧ (analyze_recipe_data strRecipes).get? 0 = some ("recipe_1", strRecord)) :=
  ⟨by decide, rfl, by decide,
    claim_C4 strRecipes 0 "recipe_1" strRecord _ (by decide) rfl (by decide)⟩

/-- Entry-level frame: the annotator may at most replace the
annotation record of a dict entry; kind, ingredient_name and quantity
are preserved, and non-dict entries are untouched. -/
def entryFrame : Entry → Entry → Prop
  | .str s, e' => e' = .str s
  | .notDict, e' => e' = .notDict
  | .obj nf q _, e' => ∃ ann', e' = .obj nf q ann'

/-- Field-level frame for recipeIngredient: shape, length and entry
order are preserved, and each entry satisfies the entry frame. -/
def ingFrame : IngField → IngField → Prop
  | .missing, f' => f' = .missing
  | .notList, f' => f' = .notList
  | .list l, f' => ∃ l', f' = .list l' ∧ l'.length = l.length
      ∧ ∀ idx e, l.get? idx = some e → ∃ e', l'.get? idx = some e' ∧ entryFrame e e'

/-- Record-level frame: rating and all other fields unchanged, and the
ingredient field changed only per ingFrame. -/
def recordFrame (r r' : RecipeRecord) : Prop :=
  r'.rating = r.rating ∧ r'.otherFields = r.otherFields ∧ ingFrame r.ingredients r'.ingredients

lemma entryFrame_annotate (counts : String → Nat) (nrec : Nat) (hb : Bool) (e : Entry) :
    entryFrame e (annotateEntry counts nrec hb e) := by
  cases e with
  | str s => simp [entryFrame, annotateEntry]
  | notDict => simp [entryFrame, annotateEntry]
  | obj nf q ann =>
    simp only [entryFrame, annotateEntry]
    rcases htn : truthyName nf with _ | nm
    · exact ⟨ann, rfl⟩
    · exact ⟨_, rfl⟩

lemma annotateRecord_frame (counts : String → Nat) (nrec : Nat) (r : RecipeRecord) :
    recordFrame r (annotateRecord counts nrec r) := by
  obtain ⟨rt, ing, ofld⟩ := r
  cases ing with
  | missing => exact ⟨rfl, rfl, rfl⟩
  | notList => exact ⟨rfl, rfl, rfl⟩
  | list l =>
    refine ⟨rfl, rfl, l.map (annotateEntry counts nrec (isHighlyRated rt)), rfl,
      List.length_map l _, ?_⟩
    intro idx e he
    refine ⟨annotateEntry counts nrec (isHighlyRated rt) e, ?_, entryFrame_annotate _ _ _ e⟩
    rw [List.get?_map, he]
    rfl

/-- C9: with fewer than 2 records the analyzer returns its input
unchanged; with 2 or more it preserves the key at every position, the
record count and order, every non-ingredient field of every record,
the recipeIngredient shape and entry order, and each entry up to its
annotation record: only the three annotation fields of dict-shaped
entries can change. -/
theorem claim_C9 :
    (∀ recipes : List (String × RecipeRecord),
      recipes.length < 2 → analyze_recipe_data recipes = recipes)
    ∧ (∀ recipes : List (String × RecipeRecord), 2 ≤ recipes.length →
        (analyze_recipe_data recipes).length = recipes.length
        ∧ ∀ j k r, recipes.get? j = some (k, r) →
            ∃ r', (analyze_recipe_data recipes).get? j = some (k, r')
              ∧ recordFrame r r') := by
  constructor
  · intro recipes h
    unfold analyze_recipe_data
    rw [if_pos h]
  · intro recipes h2
    constructor
    · unfold analyze_recipe_data
      rw [if_neg (by omega)]
      exact List.length_map recipes _
    · intro j k r hj
      rw [analyze_get? recipes j k r h2 hj]
      exact ⟨_, rfl, annotateRecord_frame _ _ r⟩

theorem claim_C9_witness :
    ([("only", mockR1)] : List (String × RecipeRecord)).length < 2
    ∧ analyze_recipe_data [("only", mockR1)] = [("only", mockR1)]
    ∧ 2 ≤ mockRecipes.length
    ∧ ((analyze_recipe_data mockRecipes).length = mockRecipes.length
        ∧ ∀ j k r, mockRecipes.get? j = some (k, r) →
            ∃ r', (analyze_recipe_data mockRecipes).get? j = some (k, r')
              ∧ recordFrame r r') :=
  ⟨by decide, claim_C9.1 _ (by decide), by decide, claim_C9.2 _ (by decide)⟩

/-! Lemmas about the fan-out coordinator acceptance loop. -/

lemma keyLabel_length {α : Type} : ∀ (xs : List α) (cnt : Nat),
    (keyLabel cnt xs).length = xs.length := by
  intro xs
  induction xs with
  | nil => intro cnt; rfl
  | cons d rest ih =>
    intro cnt
    simp [keyLabel, ih (cnt + 1)]

lemma keyLabel_map_snd {α : Type} : ∀ (xs : List α) (cnt : Nat),
    (keyLabel cnt xs).map Prod.snd = xs := by
  intro xs
  induction xs with
  | nil => intro cnt; rfl
  | cons d rest ih =>
    intro cnt
    simp [keyLabel, ih (cnt + 1)]

lemma keyLabel_map_fst {α : Type} : ∀ (xs : List α) (cnt : Nat),
    (keyLabel cnt xs).map Prod.fst
      = (List.range xs.length).map (fun idx => "recipe_" ++ toString (cnt + idx + 1)) := by
  intro xs
  induction xs with
  | nil => intro cnt; rfl
  | cons d rest ih =>
    intro cnt
    simp only [keyLabel, List.map_cons, List.length_cons, List.range_succ_eq_map,
      List.map_map, ih (cnt + 1), Nat.add_zero]
    congr 1
    apply List.map_congr_left
    intro idx _
    simp only [Function.comp_apply]
    have h : cnt + 1 + idx + 1 = cnt + (idx + 1) + 1 := by omega
    rw [h]

lemma countP_isSome_eq {α : Type} (res : List (Option α)) :
    res.countP (fun o => o.isSome) = (res.filterMap id).length := by
  induction res with
  | nil => rfl
  | cons o rest ih => cases o <;> simp [List.countP_cons, ih]

/-- Characterization of the acceptance loop: starting from counter cnt,
it labels the prefix of the flattened successful extractions of length
max 1 (limit - cnt), in input order.  The max accounts for the break
check happening only after an insertion. -/
lemma collectLoop_eq {α : Type} (limit : ℤ) :
    ∀ (res : List (Option α)) (cnt : Nat),
      collectLoop res cnt limit
        = keyLabel cnt ((res.filterMap id).take (max 1 (limit - (cnt : ℤ))).toNat) := by
  intro res
  induction res with
  | nil => intro cnt; simp [collectLoop, keyLabel]
  | cons hd rest ih =>
    intro cnt
    cases hd with
    | none =>
      simp only [collectLoop]
      rw [ih cnt]
      simp
    | some d =>
      obtain ⟨m, hm⟩ : ∃ m, (max 1 (limit - (cnt : ℤ))).toNat = m + 1 :=
        ⟨(max 1 (limit - (cnt : ℤ))).toNat - 1, by omega⟩
      simp only [collectLoop]
      have hfm : (some d :: rest).filterMap id = d :: rest.filterMap id := by simp
      rw [hfm, hm, List.take_succ_cons]
      simp only [keyLabel]
      congr 1
      by_cases hb : limit ≤ (cnt : ℤ) + 1
      · rw [if_pos hb]
        have hm0 : m = 0 := by omega
        rw [hm0]
        rfl
      · rw [if_neg hb, ih (cnt + 1)]
        congr 2
        push_cast
        omega

lemma find_recipies_collect_eq {α : Type} (res : List (Option α)) (limit : ℤ) :
    find_recipies_collect res limit
      = keyLabel 0 ((res.filterMap id).take (max 1 limit).toNat) := by
  unfold find_recipies_collect
  rw [collectLoop_eq limit res 0]
  norm_num

/-- C5: for a nonempty candidate list and a positive limit, the
coordinator accepts min(number of successful extractions, limit)
records and keys them recipe_1 through recipe_k contiguously, k being
the output length. -/
theorem claim_C5 (α : Type) (extracted : List (Option α)) (limit : ℤ)
    (hne : extracted ≠ []) (hlim : 1 ≤ limit) :
    (find_recipies_collect extracted limit).length
        = min (extracted.countP (fun o => o.isSome)) limit.toNat
    ∧ (find_recipies_collect extracted limit).map Prod.fst
        = (List.range (find_recipies_collect extracted limit).length).map
            (fun idx => "recipe_" ++ toString (idx + 1)) := by
  have hmax : max 1 limit = limit := by omega
  constructor
  · rw [find_recipies_collect_eq, hmax, keyLabel_length, List.length_take,
      countP_isSome_eq]
    omega
  · rw [find_recipies_collect_eq, hmax, keyLabel_map_fst, keyLabel_length]
    apply List.map_congr_left
    intro idx _
    have h : 0 + idx + 1 = idx + 1 := by omega
    rw [h]

theorem claim_C5_witness :
    (([some 10, none, some 20, some 30] : List (Option Nat)) ≠ [])
    ∧ (1 ≤ (2 : ℤ))
    ∧ ((find_recipies_collect ([some 10, none, some 20, some 30] : List (Option Nat)) 2).length
        = min (([some 10, none, some 20, some 30] : List (Option Nat)).countP
            (fun o => o.isSome)) (2 : ℤ).toNat
      ∧ (find_recipies_collect ([some 10, none, some 20, some 30] : List (Option Nat)) 2).map
            Prod.fst
        = (List.range (find_recipies_collect
              ([some 10, none, some 20, some 30] : List (Option Nat)) 2).length).map
            (fun idx => "recipe_" ++ toString (idx + 1))) :=
  ⟨by decide, by decide, claim_C5 Nat [some 10, none, some 20, some 30] 2 (by decide) (by decide)⟩

/-- C10: with a nonpositive limit and at least one successful
extraction, the loop still accepts exactly one record, keyed recipe_1,
because the limit test runs only after an insertion; the min length
law of C5 therefore needs the precondition limit at least 1. -/
theorem claim_C10 (α : Type) (extracted : List (Option α)) (limit : ℤ)
    (hlim : limit ≤ 0) (hne : extracted.filterMap id ≠ []) :
    (find_recipies_collect extracted limit).length = 1
    ∧ (find_recipies_collect extracted limit).map Prod.fst = ["recipe_1"]
    ∧ (find_recipies_collect extracted limit).map Prod.snd
        = (extracted.filterMap id).take 1 := by
  have hmax : (max 1 limit).toNat = 1 := by omega
  obtain ⟨x, xs, hx⟩ : ∃ x xs, extracted.filterMap id = x :: xs := by
    rcases h : extracted.filterMap id with _ | ⟨x, xs⟩
    · exact absurd h hne
    · exact ⟨x, xs, rfl⟩
  refine ⟨?_, ?_, ?_⟩ <;>
    rw [find_recipies_collect_eq, hmax, hx, List.take_succ_cons, List.take_zero] <;>
    simp [keyLabel] <;>
    decide

theorem claim_C10_witness :
    ((0 : ℤ) ≤ 0)
    ∧ (([none, some 7] : List (Option Nat)).filterMap id ≠ [])
    ∧ ((find_recipies_collect ([none, some 7] : List (Option Nat)) 0).length = 1
      ∧ (find_recipies_collect ([none, some 7] : List (Option Nat)) 0).map Prod.fst
          = ["recipe_1"]
      ∧ (find_recipies_collect ([none, some 7] : List (Option Nat)) 0).map Prod.snd
          = (([none, some 7] : List (Option Nat)).filterMap id).take 1) :=
  ⟨by decide, by decide, claim_C10 Nat [none, some 7] 0 (by decide) (by decide)⟩

/-! Lemmas about the gather model used for C6. -/

lemma foldl_update_apply {α : Type} (results : List (Option α)) :
    ∀ (schedule : List Nat) (init : Nat → Option (Option α)) (i : Nat),
      (schedule.foldl
          (fun f j => Function.update f j (some ((results.get? j).getD none))) init) i
        = if i ∈ schedule then some ((results.get? i).getD none) else init i := by
  intro schedule
  induction schedule with
  | nil => intro init i; simp
  | cons a l ih =>
    intro init i
    rw [List.foldl_cons, ih]
    by_cases hl : i ∈ l
    · simp [hl, List.mem_cons]
    · by_cases hia : i = a
      · subst hia
        simp [hl, Function.update_apply]
      · simp [hl, hia, Function.update_apply, List.mem_cons]

/-- Once every task index has completed, the joined slot array read in
task order is exactly the result list in input order, whatever the
completion schedule was. -/
lemma runSchedule_covers {α : Type} (results : List (Option α)) (schedule : List Nat)
    (h : ∀ i < results.length, i ∈ schedule) :
    runSchedule results schedule = results := by
  unfold runSchedule
  apply List.ext_get?
  intro n
  rw [List.get?_map]
  by_cases hn : n < results.length
  · rw [List.get?_range hn]
    simp only [Option.map_some']
    rw [foldl_update_apply results schedule _ n, if_pos (h n hn)]
    rcases hres : results.get? n with _ | v
    · exact absurd (List.get?_eq_none.1 hres) (by omega)
    · simp [hres]
  · rw [List.get?_eq_none.2 (by rw [List.length_range]; omega),
      List.get?_eq_none.2 (by omega)]
    rfl

/-- C6: the coordinator output is a function of the extraction results
in original candidate order only: two runs over the same inputs whose
tasks complete in different schedules produce identical outputs (same
keys on same records), and the accepted values are the prefix of the
successful extractions in input rank order. -/
theorem claim_C6 (α : Type) (results : List (Option α)) (limit : ℤ) (s₁ s₂ : List Nat)
    (h₁ : ∀ i < results.length, i ∈ s₁) (h₂ : ∀ i < results.length, i ∈ s₂) :
    find_recipies_collect (runSchedule results s₁) limit
        = find_recipies_collect (runSchedule results s₂) limit
    ∧ (find_recipies_collect (runSchedule results s₁) limit).map Prod.snd
        = (results.filterMap id).take (max 1 limit).toNat := by
  rw [runSchedule_covers results s₁ h₁, runSchedule_covers results s₂ h₂]
  refine ⟨rfl, ?_⟩
  rw [find_recipies_collect_eq, keyLabel_map_snd]

theorem claim_C6_witness :
    (∀ i < ([some 1, none, some 2] : List (Option Nat)).length, i ∈ [0, 1, 2])
    ∧ (∀ i < ([some 1, none, some 2] : List (Option Nat)).length, i ∈ [2, 1, 0])
    ∧ (find_recipies_collect (runSchedule ([some 1, none, some 2] : List (Option Nat))
          [0, 1, 2]) 5
        = find_recipies_collect (runSchedule ([some 1, none, some 2] : List (Option Nat))
            [2, 1, 0]) 5
      ∧ (find_recipies_collect (runSchedule ([some 1, none, some 2] : List (Option Nat))
            [0, 1, 2]) 5).map Prod.snd
        = (([some 1, none, some 2] : List (Option Nat)).filterMap id).take
            (max 1 (5 : ℤ)).toNat) :=
  ⟨by decide, by decide, claim_C6 Nat [some 1, none, some 2] 5 [0, 1, 2] [2, 1, 0]
    (by decide) (by decide)⟩

/-! Lemmas about the structured-record extractor. -/

lemma findRecipe_eq_find? : ∀ items : List JItem,
    findRecipe items = items.find? isRecipeItem := by
  intro items
  induction items with
  | nil => rfl
  | cons it rest ih =>
    cases h : isRecipeItem it <;> simp [findRecipe, List.find?_cons, h, ih]

lemma extract_eq_find? : ∀ blocks : List ScriptBlock,
    extract_json_ld blocks = (docCandidates blocks).find? isRecipeItem := by
  intro blocks
  induction blocks with
  | nil => rfl
  | cons b rest ih =>
    rcases hb : blockCandidates b with _ | items
    · simp only [extract_json_ld, docCandidates, List.flatMap_cons, hb, Option.getD_none,
        List.nil_append]
      exact ih
    · simp only [extract_json_ld, docCandidates, List.flatMap_cons, hb, Option.getD_some]
      rw [findRecipe_eq_find? items, List.find?_append]
      cases hfind : items.find? isRecipeItem with
      | none =>
        simp only [hfind, Option.none_or]
        exact ih
      | some it => simp only [hfind, Option.or_some]

/-- C7: the extractor skips empty blocks and undecodable blocks while
continuing with the rest of the document, normalizes the three decoded
shapes (single object, list of objects, object with a graph key) into
a flat candidate sequence, and returns the first candidate in document
order whose declared type is Recipe, or none if no block yields one;
hence an earlier malformed block never masks a later valid one. -/
theorem claim_C7 :
    (∀ rest, extract_json_ld (.empty :: rest) = extract_json_ld rest)
    ∧ (∀ rest, extract_json_ld (.invalid :: rest) = extract_json_ld rest)
    ∧ (∀ items, blockCandidates (.valid (.jlist items)) = some items)
    ∧ (∀ t p, blockCandidates (.valid (.jdict t p none)) = some [.obj t p])
    ∧ (∀ t p g, blockCandidates (.valid (.jdict t p (some g))) = some g)
    ∧ (∀ blocks, extract_json_ld blocks = (docCandidates blocks).find? isRecipeItem) :=
  ⟨fun _ => rfl, fun _ => rfl, fun _ => rfl, fun _ _ => rfl, fun _ _ _ => rfl,
    extract_eq_find?⟩

/-- C8: a falsy SERPAPI_API_KEY (unset or empty) makes the request
prologue raise HTTPException 500, a fatal user-visible failure; by
contrast a falsy GEMINI_API_KEY, a raising collaborator call, or an
unparseable collaborator response make both sort_recipes_with_gemini
and normalize_ingredients return their input mapping unmodified. -/
theorem claim_C8 :
    (serpapi_key_check none
        = .httpError 500 "SERPAPI_API_KEY environment variable not set.")
    ∧ (serpapi_key_check (some "")
        = .httpError 500 "SERPAPI_API_KEY environment variable not set.")
    ∧ (∀ (α : Type) (resp : SortOutcome) (recipes : List (String × α)),
        sort_recipes_with_gemini none resp recipes = recipes)
    ∧ (∀ (α : Type) (resp : SortOutcome) (recipes : List (String × α)),
        sort_recipes_with_gemini (some "") resp recipes = recipes)
    ∧ (∀ (α : Type) (key : Option String) (recipes : List (String × α)),
        sort_recipes_with_gemini key .svcError recipes = recipes)
    ∧ (∀ (α : Type) (key : Option String) (recipes : List (String × α)),
        sort_recipes_with_gemini key .unparseable recipes = recipes)
    ∧ (∀ (resp : NormOutcome) (recipes : List (String × RecipeRecord)),
        normalize_ingredients none resp recipes = recipes)
    ∧ (∀ (key : Option String) (recipes : List (String × RecipeRecord)),
        normalize_ingredients key .svcError recipes = recipes)
    ∧ (∀ (key : Option String) (recipes : List (String × RecipeRecord)),
        normalize_ingredients key .noJson recipes = recipes)
    ∧ (∀ (key : Option String) (recipes : List (String × RecipeRecord)),
        normalize_ingredients key .badJson recipes = recipes) := by
  refine ⟨rfl, rfl, fun α resp recipes => rfl, fun α resp recipes => rfl,
    ?_, ?_, fun resp recipes => rfl, ?_, ?_, ?_⟩
  · intro α key recipes
    unfold sort_recipes_with_gemini
    split <;> rfl
  · intro α key recipes
    unfold sort_recipes_with_gemini
    split <;> rfl
  · intro key recipes
    unfold normalize_ingredients
    split
    · rfl
    · split <;> rfl
  · intro key recipes
    unfold normalize_ingredients
    split
    · rfl
    · split <;> rfl
  · intro key recipes
    unfold normalize_ingredients
    split
    · rfl
    · split <;> rfl

end Culinary
